import Mathlib

/-!
Shallow embedding of the concurrent batch-processing pipeline of
`src/gui/main_window.py` (class `ProcessingTask`): the retrying worker
`process_image` (lines 98-143), the scheduler `run` (lines 62-96) and the
formatter `format_results` (lines 145-168), together with theorems settling
the specification claims about them.

Modelling conventions:
* One call of the body of the `try:` block at lines 104-109 — loading the
  image with `PDFProcessor.load_image` and calling
  `self.openai_client.process_image` — is abstracted as a function
  `transcribe : Nat → TResult` from the attempt number (the value of the
  Python variable `retries` when the call is made) to its result: a reported
  success `ok`, a reported failure `fail`, or a raised exception `exn`
  (an exception raised by `load_image` is an `exn` exactly like one raised
  by the client call, since both sit inside the same `try`).
* The side effects of a worker run — `progress_updated.emit` calls and
  `msleep` calls — are recorded in order in an event trace.
* The completion order produced by `concurrent.futures.as_completed` at
  line 73 is an arbitrary permutation `order` of the submitted indices
  `0, …, len(images) - 1`; every theorem about `run` quantifies over it.
* Python's `int(x)` at line 81 truncates the non-negative float
  `(i + 1) / len(images) * 100` toward zero; it is modelled exactly as the
  natural-number floor division `((i + 1) * 100) / len images`.
-/

namespace PDFtoMarkdown

/-- Result of one attempt of the `try:` body at lines 104-109 of
`main_window.py`: the client reports success with a response, reports
failure with a response, or an exception carrying message `msg` is raised
(by `load_image` or by the client call). -/
inductive TResult where
  | ok (response : String)
  | fail (response : String)
  | exn (msg : String)
deriving DecidableEq, Repr

/-- One observable side effect of a worker: a `progress_updated.emit(p, m)`
call, or an `msleep(ms)` call. -/
inductive WEvent where
  | emit (percent : Int) (message : String)
  | sleepMs (ms : Nat)
deriving DecidableEq, Repr

/-- Everything one execution of `ProcessingTask.process_image` does:
the returned `(success, text)` pair, the number of times the `try:` body
(the transcriber) was entered, the ordered trace of emits and sleeps, and
an instrumentation flag that is `true` exactly when the fall-through
`return False, "Maximum retries exceeded"` at lines 142-143 executed. -/
structure WorkerTrace where
  outcome : Bool × String
  calls : Nat
  events : List WEvent
  fallback : Bool
deriving DecidableEq, Repr

/-- The `while retries <= self.max_retries` loop of
`ProcessingTask.process_image` (lines 103-141), entered with the current
value of `retries`.  Each iteration runs the `try:` body once
(`transcribe retries`); on `ok` it returns `(True, response)` (line 112);
on `fail` or `exn` it increments `retries` and either emits the retry
notification with sentinel `-1`, sleeps `2 ** retries * 1000` milliseconds
and loops (lines 116-123 resp. 130-137), or, when `retries` now exceeds
`max_retries`, returns `(False, response)` resp. `(False, str(e))`
(lines 126, 140).  Leaving the loop without returning reaches lines 142-143,
recorded by `fallback := true`. -/
def process_image_go (transcribe : Nat → TResult) (max_retries page_num retries : Nat) :
    WorkerTrace :=
  if _h : retries ≤ max_retries then
    match transcribe retries with
    | .ok response => ⟨(true, response), 1, [], false⟩
    | .fail response =>
        if retries + 1 ≤ max_retries then
          let rest := process_image_go transcribe max_retries page_num (retries + 1)
          ⟨rest.outcome, rest.calls + 1,
            .emit (-1) ("Retrying page " ++ toString page_num ++ " (attempt "
              ++ toString (retries + 1) ++ "/" ++ toString max_retries ++ ")...")
              :: .sleepMs (2 ^ (retries + 1) * 1000) :: rest.events,
            rest.fallback⟩
        else ⟨(false, response), 1, [], false⟩
    | .exn msg =>
        if retries + 1 ≤ max_retries then
          let rest := process_image_go transcribe max_retries page_num (retries + 1)
          ⟨rest.outcome, rest.calls + 1,
            .emit (-1) ("Error on page " ++ toString page_num ++ ", retrying (attempt "
              ++ toString (retries + 1) ++ "/" ++ toString max_retries ++ ")...")
              :: .sleepMs (2 ^ (retries + 1) * 1000) :: rest.events,
            rest.fallback⟩
        else ⟨(false, msg), 1, [], false⟩
  else ⟨(false, "Maximum retries exceeded"), 0, [], true⟩
termination_by max_retries + 1 - retries
decreasing_by all_goals omega

/-- `ProcessingTask.process_image(image_path, idx)` (lines 98-143):
sets `page_num = idx + 1`, `retries = 0`, then runs the retry loop. -/
def process_image (transcribe : Nat → TResult) (max_retries idx : Nat) : WorkerTrace :=
  process_image_go transcribe max_retries (idx + 1) 0

/-- The sleep durations (milliseconds), in order, of an event trace:
the backoff schedule of a worker run. -/
def sleepsOf : List WEvent → List Nat
  | [] => []
  | .sleepMs ms :: rest => ms :: sleepsOf rest
  | .emit _ _ :: rest => sleepsOf rest

/-- Replace a raised exception by a reported failure carrying the same
message: the transformation performed by the `except Exception as e:`
handler at lines 128-140, which treats `str(e)` exactly as a failure
response on the retry/backoff path. -/
def catchFail : TResult → TResult
  | .exn msg => .fail msg
  | r => r

/-- One entry of the Python `results` list of `ProcessingTask.run`: the
tuple `(idx, success, text, page_num)` appended at line 78. -/
structure PageResult where
  idx : Nat
  success : Bool
  text : String
  page_num : Nat
deriving DecidableEq, Repr

/-- The `results` list collected by the `as_completed` loop of
`ProcessingTask.run` (lines 73-87), given the completion order `order`
(the sequence of original indices in the order their futures complete) and
the worker's `(success, text)` outcome for each image.  Each completed
future appends exactly one tuple `(idx, success, text, idx + 1)`; since
the worker `process_image` is a total function that always returns a pair
and never raises, the `except` branch at lines 86-87 never runs. -/
def collect_results (images : List String) (worker : String → Nat → Bool × String)
    (order : List Nat) : List PageResult :=
  order.map fun idx =>
    let r := worker (images.getD idx "") idx
    ⟨idx, r.1, r.2, idx + 1⟩

/-- The progress events emitted by the `as_completed` loop (lines 80-85):
after the `i`-th completion (0-based) the scheduler emits
`int((i + 1) / len(images) * 100)` — truncation of the non-negative float,
i.e. floor division `((i + 1) * 100) / len images` — and the message
`f"Processed page {page_num}/{len(self.images)}"` for the page that just
completed. -/
def run_progress_events (images : List String) (order : List Nat) : List (Int × String) :=
  (List.range order.length).map fun i =>
    ((((i + 1) * 100) / images.length : Nat),
      "Processed page " ++ toString (order.getD i 0 + 1) ++ "/" ++ toString images.length)

/-- `results.sort(key=lambda x: x[0])` at line 90: stable sort ascending by
the original index. -/
def sort_results (rs : List PageResult) : List PageResult :=
  rs.mergeSort fun a b => a.idx ≤ b.idx

/-- `self.separator`, set to `"\n\n"` in `ProcessingTask.__init__` (line 60). -/
def separator : String := "\n\n"

/-- The error block built at lines 154-157 of `format_results` for a failed
page: a Markdown block quote when `output_format == "md"`, a bannered plain
block otherwise. -/
def error_block (output_format : String) (page_num : Nat) (text : String) : String :=
  if output_format = "md" then
    "> **Error processing page " ++ toString page_num ++ ":**\n>\n> ```json\n> "
      ++ text ++ "\n> ```"
  else
    "--- Error processing page " ++ toString page_num ++ " ---\n\n" ++ text ++ "\n\n---"

/-- The string appended to `output` for one results tuple in the
`for _, success, text, page_num in results` loop (lines 149-158): the text
verbatim on success, the error block on failure. -/
def block_of (output_format : String) (r : PageResult) : String :=
  if r.success then r.text else error_block output_format r.page_num r.text

/-- `ProcessingTask.format_results` (lines 145-168): builds one block per
results tuple in order and joins them with `self.separator`. -/
def format_results (output_format : String) (results : List PageResult) : String :=
  String.intercalate separator (results.map (block_of output_format))

/-- The whole of `ProcessingTask.run` after collection (lines 89-96):
sort the collected results by original index and format them. -/
def run_batch (images : List String) (worker : String → Nat → Bool × String)
    (order : List Nat) (output_format : String) : String :=
  format_results output_format (sort_results (collect_results images worker order))

/-! ## Helper lemmas about the retry loop

One non-recursive equation per branch of the loop body, then the
inductions the claims need. -/

/-- Branch equation: the loop is not entered when `retries > max_retries`
(lines 142-143). -/
theorem process_image_go_stop (t : Nat → TResult) (R p retries : Nat)
    (h : ¬ retries ≤ R) :
    process_image_go t R p retries
      = ⟨(false, "Maximum retries exceeded"), 0, [], true⟩ := by
  rw [process_image_go, dif_neg h]

/-- Branch equation: a successful call returns immediately (line 112). -/
theorem process_image_go_ok (t : Nat → TResult) (R p retries : Nat) (response : String)
    (hle : retries ≤ R) (ht : t retries = .ok response) :
    process_image_go t R p retries = ⟨(true, response), 1, [], false⟩ := by
  rw [process_image_go, dif_pos hle, ht]

/-- Branch equation: a reported failure with retries remaining emits the
retry notification, sleeps `2 ^ (retries + 1)` seconds and loops
(lines 114-123). -/
theorem process_image_go_fail_retry (t : Nat → TResult) (R p retries : Nat)
    (response : String) (hle : retries ≤ R) (ht : t retries = .fail response)
    (h2 : retries + 1 ≤ R) :
    process_image_go t R p retries =
      ⟨(process_image_go t R p (retries + 1)).outcome,
       (process_image_go t R p (retries + 1)).calls + 1,
       .emit (-1) ("Retrying page " ++ toString p ++ " (attempt "
           ++ toString (retries + 1) ++ "/" ++ toString R ++ ")...")
         :: .sleepMs (2 ^ (retries + 1) * 1000)
         :: (process_image_go t R p (retries + 1)).events,
       (process_image_go t R p (retries + 1)).fallback⟩ := by
  rw [process_image_go, dif_pos hle, ht]
  simp [h2]

/-- Branch equation: a reported failure on the last permitted attempt
returns the failed pair with the response (lines 124-126). -/
theorem process_image_go_fail_stop (t : Nat → TResult) (R p retries : Nat)
    (response : String) (hle : retries ≤ R) (ht : t retries = .fail response)
    (h2 : ¬ retries + 1 ≤ R) :
    process_image_go t R p retries = ⟨(false, response), 1, [], false⟩ := by
  rw [process_image_go, dif_pos hle, ht]
  simp [h2]

/-- Branch equation: a raised exception with retries remaining emits the
error notification, sleeps `2 ^ (retries + 1)` seconds and loops
(lines 128-137). -/
theorem process_image_go_exn_retry (t : Nat → TResult) (R p retries : Nat)
    (msg : String) (hle : retries ≤ R) (ht : t retries = .exn msg)
    (h2 : retries + 1 ≤ R) :
    process_image_go t R p retries =
      ⟨(process_image_go t R p (retries + 1)).outcome,
       (process_image_go t R p (retries + 1)).calls + 1,
       .emit (-1) ("Error on page " ++ toString p ++ ", retrying (attempt "
           ++ toString (retries + 1) ++ "/" ++ toString R ++ ")...")
         :: .sleepMs (2 ^ (retries + 1) * 1000)
         :: (process_image_go t R p (retries + 1)).events,
       (process_image_go t R p (retries + 1)).fallback⟩ := by
  rw [process_image_go, dif_pos hle, ht]
  simp [h2]

/-- Branch equation: an exception on the last permitted attempt returns the
failed pair with `str(e)` (lines 138-140). -/
theorem process_image_go_exn_stop (t : Nat → TResult) (R p retries : Nat)
    (msg : String) (hle : retries ≤ R) (ht : t retries = .exn msg)
    (h2 : ¬ retries + 1 ≤ R) :
    process_image_go t R p retries = ⟨(false, msg), 1, [], false⟩ := by
  rw [process_image_go, dif_pos hle, ht]
  simp [h2]

/-- Every iteration of the retry loop entered with `retries ≤ max_retries`
returns from inside the loop: the instrumentation flag for the
fall-through at lines 142-143 stays `false`. -/
theorem process_image_go_fallback (t : Nat → TResult) (R p : Nat) :
    ∀ d retries, retries ≤ R → R + 1 - retries = d →
      (process_image_go t R p retries).fallback = false := by
  intro d
  induction d with
  | zero => intro retries hle hd; omega
  | succ n ih =>
    intro retries hle hd
    cases ht : t retries with
    | ok response => rw [process_image_go_ok t R p retries response hle ht]
    | fail response =>
      by_cases h2 : retries + 1 ≤ R
      · rw [process_image_go_fail_retry t R p retries response hle ht h2]
        exact ih (retries + 1) h2 (by omega)
      · rw [process_image_go_fail_stop t R p retries response hle ht h2]
    | exn msg =>
      by_cases h2 : retries + 1 ≤ R
      · rw [process_image_go_exn_retry t R p retries msg hle ht h2]
        exact ih (retries + 1) h2 (by omega)
      · rw [process_image_go_exn_stop t R p retries msg hle ht h2]

/-- A raised exception and a reported failure with the same message drive
the loop identically except for the wording of the progress message:
same returned pair, same number of transcriber calls, same backoff sleeps. -/
theorem process_image_go_catchFail (t : Nat → TResult) (R p : Nat) :
    ∀ d retries, R + 1 - retries = d →
      (process_image_go t R p retries).outcome
          = (process_image_go (fun n => catchFail (t n)) R p retries).outcome ∧
        (process_image_go t R p retries).calls
          = (process_image_go (fun n => catchFail (t n)) R p retries).calls ∧
        sleepsOf (process_image_go t R p retries).events
          = sleepsOf (process_image_go (fun n => catchFail (t n)) R p retries).events := by
  intro d
  induction d with
  | zero =>
    intro retries hd
    have hgt : ¬ retries ≤ R := by omega
    rw [process_image_go_stop t R p retries hgt,
      process_image_go_stop (fun n => catchFail (t n)) R p retries hgt]
    exact ⟨rfl, rfl, rfl⟩
  | succ n ih =>
    intro retries hd
    by_cases hle : retries ≤ R
    · cases ht : t retries with
      | ok response =>
        rw [process_image_go_ok t R p retries response hle ht,
          process_image_go_ok (fun n => catchFail (t n)) R p retries response hle
            (by simp [catchFail, ht])]
        exact ⟨rfl, rfl, rfl⟩
      | fail response =>
        by_cases h2 : retries + 1 ≤ R
        · have := ih (retries + 1) (by omega)
          rw [process_image_go_fail_retry t R p retries response hle ht h2,
            process_image_go_fail_retry (fun n => catchFail (t n)) R p retries response hle
              (by simp [catchFail, ht]) h2]
          exact ⟨this.1, by simp [this.2.1], by simp [sleepsOf, this.2.2]⟩
        · rw [process_image_go_fail_stop t R p retries response hle ht h2,
            process_image_go_fail_stop (fun n => catchFail (t n)) R p retries response hle
              (by simp [catchFail, ht]) h2]
          exact ⟨rfl, rfl, rfl⟩
      | exn msg =>
        by_cases h2 : retries + 1 ≤ R
        · have := ih (retries + 1) (by omega)
          rw [process_image_go_exn_retry t R p retries msg hle ht h2,
            process_image_go_fail_retry (fun n => catchFail (t n)) R p retries msg hle
              (by simp [catchFail, ht]) h2]
          exact ⟨this.1, by simp [this.2.1], by simp [sleepsOf, this.2.2]⟩
        · rw [process_image_go_exn_stop t R p retries msg hle ht h2,
            process_image_go_fail_stop (fun n => catchFail (t n)) R p retries msg hle
              (by simp [catchFail, ht]) h2]
          exact ⟨rfl, rfl, rfl⟩
    · rw [process_image_go_stop t R p retries hle,
        process_image_go_stop (fun n => catchFail (t n)) R p retries hle]
      exact ⟨rfl, rfl, rfl⟩

/-- When the transcriber never reports success, the loop entered at
`retries ≤ max_retries` makes exactly `max_retries + 1 - retries` further
transcriber calls and ends with a failed pair. -/
theorem process_image_go_always_fail (t : Nat → TResult) (R p : Nat)
    (h : ∀ n response, t n ≠ .ok response) :
    ∀ d retries, retries ≤ R → R + 1 - retries = d →
      (process_image_go t R p retries).calls = R + 1 - retries ∧
        (process_image_go t R p retries).outcome.1 = false := by
  intro d
  induction d with
  | zero => intro retries hle hd; omega
  | succ n ih =>
    intro retries hle hd
    cases ht : t retries with
    | ok response => exact absurd ht (h retries response)
    | fail response =>
      by_cases h2 : retries + 1 ≤ R
      · have := ih (retries + 1) h2 (by omega)
        rw [process_image_go_fail_retry t R p retries response hle ht h2]
        exact ⟨by simp [this.1]; omega, this.2⟩
      · rw [process_image_go_fail_stop t R p retries response hle ht h2]
        exact ⟨by simp; omega, rfl⟩
    | exn msg =>
      by_cases h2 : retries + 1 ≤ R
      · have := ih (retries + 1) h2 (by omega)
        rw [process_image_go_exn_retry t R p retries msg hle ht h2]
        exact ⟨by simp [this.1]; omega, this.2⟩
      · rw [process_image_go_exn_stop t R p retries msg hle ht h2]
        exact ⟨by simp; omega, rfl⟩

/-- When every call reports failure (`fail (e n)` on attempt `n`), the loop
entered at `retries ≤ max_retries` emits, for each remaining
`a = retries + 1, …, max_retries`, the retry notification for attempt `a`
followed by the `2 ^ a`-second sleep, and nothing else. -/
theorem process_image_go_events (t : Nat → TResult) (e : Nat → String) (R p : Nat)
    (h : ∀ n, t n = .fail (e n)) :
    ∀ d retries, retries ≤ R → R + 1 - retries = d →
      (process_image_go t R p retries).events =
        (List.range' (retries + 1) (R - retries)).flatMap fun a =>
          [WEvent.emit (-1) ("Retrying page " ++ toString p ++ " (attempt "
              ++ toString a ++ "/" ++ toString R ++ ")..."),
           WEvent.sleepMs (2 ^ a * 1000)] := by
  intro d
  induction d with
  | zero => intro retries hle hd; omega
  | succ n ih =>
    intro retries hle hd
    by_cases h2 : retries + 1 ≤ R
    · rw [process_image_go_fail_retry t R p retries (e retries) hle (h retries) h2]
      have hrange : R - retries = (R - (retries + 1)) + 1 := by omega
      rw [hrange, List.range'_succ]
      simp [ih (retries + 1) h2 (by omega)]
    · rw [process_image_go_fail_stop t R p retries (e retries) hle (h retries) h2]
      have hzero : R - retries = 0 := by omega
      simp [hzero]

/-- Every `progress_updated.emit` performed inside the retry loop carries
the sentinel percentage `-1` (lines 119-122 and 133-136). -/
theorem process_image_go_sentinel (t : Nat → TResult) (R p : Nat) :
    ∀ d retries, R + 1 - retries = d →
      ∀ q m, WEvent.emit q m ∈ (process_image_go t R p retries).events → q = -1 := by
  intro d
  induction d with
  | zero =>
    intro retries hd q m hm
    have hgt : ¬ retries ≤ R := by omega
    rw [process_image_go_stop t R p retries hgt] at hm
    simp at hm
  | succ n ih =>
    intro retries hd q m hm
    by_cases hle : retries ≤ R
    · cases ht : t retries with
      | ok response =>
        rw [process_image_go_ok t R p retries response hle ht] at hm
        simp at hm
      | fail response =>
        by_cases h2 : retries + 1 ≤ R
        · rw [process_image_go_fail_retry t R p retries response hle ht h2] at hm
          simp only [List.mem_cons] at hm
          rcases hm with hm | hm | hm
          · cases hm; rfl
          · cases hm
          · exact ih (retries + 1) (by omega) q m hm
        · rw [process_image_go_fail_stop t R p retries response hle ht h2] at hm
          simp at hm
      | exn msg =>
        by_cases h2 : retries + 1 ≤ R
        · rw [process_image_go_exn_retry t R p retries msg hle ht h2] at hm
          simp only [List.mem_cons] at hm
          rcases hm with hm | hm | hm
          · cases hm; rfl
          · cases hm
          · exact ih (retries + 1) (by omega) q m hm
        · rw [process_image_go_exn_stop t R p retries msg hle ht h2] at hm
          simp at hm
    · rw [process_image_go_stop t R p retries hle] at hm
      simp at hm

/-! ## Claims about the retrying worker -/

/-- C3: with `max_retries = R`, a unit whose transcriber call fails or
raises on every attempt causes `process_image` to invoke the transcriber
exactly `R + 1` times (1 initial attempt plus `R` retries) and then return
a failed pair. -/
theorem c3_retry_bound (t : Nat → TResult) (R idx : Nat)
    (h : ∀ n response, t n ≠ .ok response) :
    (process_image t R idx).calls = R + 1 ∧
      (process_image t R idx).outcome.1 = false := by
  have := process_image_go_always_fail t R (idx + 1) h (R + 1) 0 (Nat.zero_le R) rfl
  exact ⟨by simpa [process_image] using this.1, by simpa [process_image] using this.2⟩

/-- Witness for C3 at `R = 2`, a transcriber that always reports failure. -/
theorem c3_retry_bound_witness :
    (∀ n response, (fun _ : Nat => TResult.fail "error") n ≠ TResult.ok response) ∧
      (process_image (fun _ : Nat => TResult.fail "error") 2 0).calls = 2 + 1 ∧
      (process_image (fun _ : Nat => TResult.fail "error") 2 0).outcome.1 = false :=
  ⟨fun _ _ h => TResult.noConfusion h,
   c3_retry_bound (fun _ : Nat => TResult.fail "error") 2 0 (fun _ _ h => TResult.noConfusion h)⟩

/-- C4: with `max_retries = R ≥ 1` and a unit whose every call reports
failure, the event trace of `process_image` is exactly, for attempts
`1, 2, …, R` in that order: the indeterminate (`-1`) progress notification
naming the page (`idx + 1`) and the retry attempt, immediately followed by
the `2 ^ attempt`-second (`2 ^ attempt * 1000` ms) backoff sleep — so the
successive waits are `2^1, 2^2, …, 2^R` seconds, and nothing else is
emitted. -/
theorem c4_backoff_growth (t : Nat → TResult) (e : Nat → String) (R idx : Nat)
    (h : ∀ n, t n = .fail (e n)) :
    (process_image t R idx).events =
      (List.range R).flatMap fun i =>
        [WEvent.emit (-1) ("Retrying page " ++ toString (idx + 1) ++ " (attempt "
            ++ toString (i + 1) ++ "/" ++ toString R ++ ")..."),
         WEvent.sleepMs (2 ^ (i + 1) * 1000)] := by
  have := process_image_go_events t e R (idx + 1) h (R + 1) 0 (Nat.zero_le R) rfl
  rw [process_image, this]
  have hr : List.range' 1 R = (List.range R).map (fun i => 1 + i) := by
    simpa using List.range'_eq_map_range 1 R
  rw [show R - 0 = R from rfl, hr, List.flatMap_map]
  refine List.flatMap_congr ?_
  intro i _
  simp [Nat.add_comm 1 i]

/-- Witness for C4 at `R = 2`, `idx = 0`, always-failing transcriber:
the trace is emit/sleep 2 s, then emit/sleep 4 s. -/
theorem c4_backoff_growth_witness :
    (∀ n, (fun _ : Nat => TResult.fail "boom") n = TResult.fail ((fun _ : Nat => "boom") n)) ∧
      (process_image (fun _ : Nat => TResult.fail "boom") 2 0).events =
        (List.range 2).flatMap (fun i =>
          [WEvent.emit (-1) ("Retrying page " ++ toString (0 + 1) ++ " (attempt "
              ++ toString (i + 1) ++ "/" ++ toString 2 ++ ")..."),
           WEvent.sleepMs (2 ^ (i + 1) * 1000)]) :=
  ⟨fun _ => rfl,
   c4_backoff_growth (fun _ : Nat => TResult.fail "boom") (fun _ : Nat => "boom") 2 0 (fun _ => rfl)⟩

/-- C5: for every transcriber behaviour (reported failures and raised
exceptions in any mixture, on any attempt, image loading included — both
sit inside the same `try`), the worker catches each exception locally and
treats it exactly like a reported failure carrying the same message: the
returned pair, the number of transcriber calls and the backoff sleeps are
identical to those of the run in which every exception is replaced by a
reported failure.  The worker is a total function into pairs — it always
yields an outcome and the model has no exception escape path, because the
`except Exception` handler at lines 128-140 covers the whole `try:` body
and never re-raises. -/
theorem c5_exception_equals_failure (t : Nat → TResult) (R idx : Nat) :
    (process_image t R idx).outcome
        = (process_image (fun n => catchFail (t n)) R idx).outcome ∧
      (process_image t R idx).calls
        = (process_image (fun n => catchFail (t n)) R idx).calls ∧
      sleepsOf (process_image t R idx).events
        = sleepsOf (process_image (fun n => catchFail (t n)) R idx).events :=
  process_image_go_catchFail t R (idx + 1) (R + 1) 0 rfl

/-- C10: the fall-through `return False, "Maximum retries exceeded"` after
the retry loop (lines 142-143) is unreachable for every transcriber and
every `max_retries`: the loop is entered with `retries = 0 ≤ max_retries`
and every iteration either returns or re-establishes the loop guard. -/
theorem c10_fallback_unreachable (t : Nat → TResult) (R idx : Nat) :
    (process_image t R idx).fallback = false :=
  process_image_go_fallback t R (idx + 1) (R + 1) 0 (Nat.zero_le R) rfl

/-! ## Helper lemmas about the scheduler -/

/-- Each completed future appends exactly one tuple, carrying its original
index: projecting the collected results on `idx` gives back the completion
order itself. -/
theorem collect_results_map_idx (images : List String)
    (worker : String → Nat → Bool × String) (order : List Nat) :
    (collect_results images worker order).map (·.idx) = order := by
  simp [collect_results, List.map_map, Function.comp_def]

/-- `sort_results` is sorted ascending on the `idx` projection. -/
theorem sort_results_sorted (rs : List PageResult) :
    List.Sorted (· ≤ ·) ((sort_results rs).map (·.idx)) := by
  have hp := @List.sorted_mergeSort PageResult (fun a b => decide (a.idx ≤ b.idx))
    (fun a b c hab hbc =>
      decide_eq_true (le_trans (of_decide_eq_true hab) (of_decide_eq_true hbc)))
    (fun a b => by
      rcases le_total a.idx b.idx with h | h
      · simp [decide_eq_true h]
      · simp [decide_eq_true h]) rs
  have hpw : List.Pairwise (fun a b : PageResult => a.idx ≤ b.idx) (sort_results rs) :=
    hp.imp fun hab => of_decide_eq_true hab
  exact List.Pairwise.map _ (fun _ _ hab => hab) hpw

/-! ## Claims about the scheduler -/

/-- C1: for every list of page units and every completion order of the
concurrent workers, the sorted results handed to the formatter carry the
original 0-based indices in ascending order — indeed their index sequence
is exactly `0, 1, …, len images - 1` — so the emitted result is always in
original page order. -/
theorem c1_order_preservation (images : List String)
    (worker : String → Nat → Bool × String) (order : List Nat)
    (h : order.Perm (List.range images.length)) :
    (sort_results (collect_results images worker order)).map (·.idx)
      = List.range images.length := by
  have hperm :
      ((sort_results (collect_results images worker order)).map (·.idx)).Perm
        (List.range images.length) := by
    have h1 := (List.mergeSort_perm (collect_results images worker order)
      (fun a b => a.idx ≤ b.idx)).map (fun r : PageResult => r.idx)
    rw [collect_results_map_idx] at h1
    exact h1.trans h
  exact List.eq_of_perm_of_sorted hperm (sort_results_sorted _)
    (by simpa [List.Sorted] using List.pairwise_le_range images.length)

/-- Witness for C1: two pages completing in reverse order. -/
theorem c1_order_preservation_witness :
    ([1, 0] : List Nat).Perm (List.range (["a", "b"] : List String).length) ∧
      (sort_results (collect_results ["a", "b"] (fun _ _ => (true, "x")) [1, 0])).map
          (·.idx) = List.range (["a", "b"] : List String).length :=
  ⟨by decide,
   c1_order_preservation ["a", "b"] (fun _ _ => (true, "x")) [1, 0] (by decide)⟩

/-- C2: for every submitted batch and every completion order, the multiset
of indices of the collected outcomes is a permutation of the indices of the
submitted units — exactly one outcome per unit, no unit lost, no index
duplicated, whatever the per-unit success values are.  (The substantive
step is `collect_results_map_idx`: each `as_completed` iteration appends
exactly one tuple carrying its future's index, whether the worker reported
success or failure.) -/
theorem c2_no_loss_no_duplication (images : List String)
    (worker : String → Nat → Bool × String) (order : List Nat)
    (h : order.Perm (List.range images.length)) :
    ((collect_results images worker order).map (·.idx)).Perm
      (List.range images.length) := by
  rw [collect_results_map_idx]
  exact h

/-- Witness for C2: two pages completing in reverse order, one failing. -/
theorem c2_no_loss_no_duplication_witness :
    ([1, 0] : List Nat).Perm (List.range (["a", "b"] : List String).length) ∧
      ((collect_results ["a", "b"] (fun _ i => (i = 0, "x")) [1, 0]).map (·.idx)).Perm
        (List.range (["a", "b"] : List String).length) :=
  ⟨by decide,
   c2_no_loss_no_duplication ["a", "b"] (fun _ i => (i = 0, "x")) [1, 0] (by decide)⟩

/-- C6: the empty batch yields an empty sorted result, the formatter
renders the empty string, and no progress events are emitted; the
percentage division by `len(self.images)` at line 81 sits inside the loop
over completed futures, which has no iterations, so no division of any
kind is performed. -/
theorem c6_empty_batch (worker : String → Nat → Bool × String) (order : List Nat)
    (output_format : String)
    (h : order.Perm (List.range ([] : List String).length)) :
    sort_results (collect_results [] worker order) = [] ∧
      run_batch [] worker order output_format = "" ∧
      run_progress_events [] order = [] := by
  have hnil : order = [] := by simpa using h
  subst hnil
  have h1 : sort_results (collect_results [] worker []) = [] := by
    simp [sort_results, collect_results]
  exact ⟨h1, by rw [run_batch, h1]; rfl, rfl⟩

/-- Witness for C6: the literal empty batch. -/
theorem c6_empty_batch_witness :
    ([] : List Nat).Perm (List.range ([] : List String).length) ∧
      (sort_results (collect_results [] (fun _ _ => (true, "t")) []) = [] ∧
        run_batch [] (fun _ _ => (true, "t")) [] "md" = "" ∧
        run_progress_events [] [] = []) :=
  ⟨List.Perm.refl _, c6_empty_batch (fun _ _ => (true, "t")) [] "md" (List.Perm.refl _)⟩

/-- C7 as amended: after the `k`-th outcome arrives (`k = i + 1`) out of
`N = len images` total units, the scheduler emits a progress event whose
percentage equals `⌊k / N * 100⌋` — `int()`-truncation of the non-negative
quotient, i.e. the floor, NOT `round` — together with the
"Processed page n/N" message naming the page that just completed. -/
theorem c7_progress_event_floor (images : List String) (order : List Nat) (i : Nat)
    (h : order.Perm (List.range images.length)) (hi : i < images.length) :
    (run_progress_events images order).getD i (0, "") =
      ((↑(⌊(i + 1 : ℚ) / images.length * 100⌋₊) : ℤ),
       "Processed page " ++ toString (order.getD i 0 + 1) ++ "/"
         ++ toString images.length) := by
  have hlen : order.length = images.length := h.length_eq.trans (List.length_range _)
  have hi' : i < order.length := by omega
  have hfloor : (⌊(i + 1 : ℚ) / images.length * 100⌋₊ : Nat)
      = ((i + 1) * 100) / images.length := by
    rw [div_mul_eq_mul_div]
    have hcast : ((i + 1 : ℚ)) * 100 = (((i + 1) * 100 : ℕ) : ℚ) := by push_cast; ring
    rw [hcast, Nat.floor_div_eq_div]
  simp only [run_progress_events, List.getD_eq_getElem?_getD, List.getElem?_map,
    List.getElem?_range hi', Option.map_some, Option.getD_some, hfloor]
  rfl

/-- Witness for C7 (amended) at the second completion of a three-page batch. -/
theorem c7_progress_event_floor_witness :
    ([2, 0, 1] : List Nat).Perm (List.range (["a", "b", "c"] : List String).length) ∧
      1 < (["a", "b", "c"] : List String).length ∧
      (run_progress_events ["a", "b", "c"] [2, 0, 1]).getD 1 (0, "") =
        ((↑(⌊(1 + 1 : ℚ) / (["a", "b", "c"] : List String).length * 100⌋₊) : ℤ),
         "Processed page " ++ toString (([2, 0, 1] : List Nat).getD 1 0 + 1) ++ "/"
           ++ toString (["a", "b", "c"] : List String).length) :=
  ⟨by decide, by decide,
   c7_progress_event_floor ["a", "b", "c"] [2, 0, 1] 1 (by decide) (by decide)⟩

/-- Counterexample to C7 as stated: at the second completion (`k = 2`) of a
three-page batch the code emits `int(2 / 3 * 100) = 66`, while
`round(2 / 3 * 100) = round(66.67) = 67`; so `percentComplete` is not the
rounding of `k / N * 100` — line 81 truncates. -/
theorem c7_round_counterexample :
    ((run_progress_events ["a", "b", "c"] [2, 0, 1]).getD 1 (0, "")).1 = 66 ∧
      round ((1 + 1 : ℚ) / 3 * 100) = 67 ∧
      ((run_progress_events ["a", "b", "c"] [2, 0, 1]).getD 1 (0, "")).1
        ≠ round ((1 + 1 : ℚ) / 3 * 100) := by
  have h1 : ((run_progress_events ["a", "b", "c"] [2, 0, 1]).getD 1 (0, "")).1 = 66 := by
    rfl
  have h2 : round ((1 + 1 : ℚ) / 3 * 100) = 67 := by
    norm_num [round_eq]
  exact ⟨h1, h2, by rw [h1, h2]; decide⟩

/-- C8: over a complete run on a non-empty batch, the percentages of the
scheduler's progress events are monotonically non-decreasing and the last
one equals 100; and every progress event emitted by a worker (the only
other emitter) carries the sentinel `-1`, so the non-sentinel
`percentComplete` values of the whole run are exactly the scheduler's
non-decreasing sequence ending in 100. -/
theorem c8_progress_monotone (images : List String) (order : List Nat)
    (h : order.Perm (List.range images.length)) (hne : images ≠ []) :
    List.Sorted (· ≤ ·) ((run_progress_events images order).map Prod.fst) ∧
      ((run_progress_events images order).map Prod.fst).getLast? = some 100 ∧
      ∀ (t : Nat → TResult) (R idx : Nat) (q : Int) (m : String),
        WEvent.emit q m ∈ (process_image t R idx).events → q = -1 := by
  have hlen : order.length = images.length := h.length_eq.trans (List.length_range _)
  have hN : images.length ≠ 0 := fun h0 => hne (List.length_eq_zero.mp h0)
  refine ⟨?_, ?_, ?_⟩
  · rw [run_progress_events, List.map_map]
    refine List.Pairwise.map _ ?_ (List.pairwise_lt_range order.length)
    intro a b hab
    simp only [Function.comp_apply]
    exact Int.ofNat_le.mpr
      (Nat.div_le_div_right (Nat.mul_le_mul_right 100 (by omega)))
  · obtain ⟨m, hm⟩ : ∃ m, order.length = m + 1 := ⟨order.length - 1, by omega⟩
    rw [run_progress_events, List.map_map, hm, List.range_succ, List.map_append]
    simp only [List.map_cons, List.map_nil]
    rw [List.getLast?_concat]
    have hm1 : m + 1 = images.length := by omega
    simp only [Function.comp_apply, hm1, Nat.mul_div_cancel_left 100
      (Nat.pos_of_ne_zero hN)]
    rfl
  · intro t R idx q msg hmem
    exact process_image_go_sentinel t R (idx + 1) (R + 1) 0 rfl q msg hmem

/-- Witness for C8: two pages completing in reverse order. -/
theorem c8_progress_monotone_witness :
    ([1, 0] : List Nat).Perm (List.range (["a", "b"] : List String).length) ∧
      (["a", "b"] : List String) ≠ [] ∧
      (List.Sorted (· ≤ ·)
          ((run_progress_events ["a", "b"] [1, 0]).map Prod.fst) ∧
        ((run_progress_events ["a", "b"] [1, 0]).map Prod.fst).getLast? = some 100 ∧
        ∀ (t : Nat → TResult) (R idx : Nat) (q : Int) (m : String),
          WEvent.emit q m ∈ (process_image t R idx).events → q = -1) :=
  ⟨by decide, by decide,
   c8_progress_monotone ["a", "b"] [1, 0] (by decide) (by decide)⟩

/-! ## Claim about the formatter -/

/-- C9: for every batch result (whose tuples carry, as `run` constructs
them, the 1-based page number `idx + 1`), `format_results` joins one block
per outcome, in order, with the fixed separator `"\n\n"`; a succeeded
outcome's block is its text verbatim; a failed outcome's block contains the
1-based page number and the error text, and is distinctly marked per the
configured output shape — it starts with the `"> **Error processing page "`
block-quote marker when `output_format = "md"` and with the
`"--- Error processing page "` banner otherwise. -/
theorem c9_formatter (output_format : String) (results : List PageResult)
    (hpn : ∀ r ∈ results, r.page_num = r.idx + 1) :
    format_results output_format results
        = String.intercalate "\n\n" (results.map (block_of output_format)) ∧
      (∀ r ∈ results, r.success = true → block_of output_format r = r.text) ∧
      (∀ r ∈ results, r.success = false →
        (toString (r.idx + 1)).data <:+: (block_of output_format r).data ∧
        r.text.data <:+: (block_of output_format r).data ∧
        (output_format = "md" →
          ("> **Error processing page ").data <+: (block_of output_format r).data) ∧
        (output_format ≠ "md" →
          ("--- Error processing page ").data <+: (block_of output_format r).data)) := by
  refine ⟨rfl, ?_, ?_⟩
  · intro r _ hs
    simp [block_of, hs]
  · intro r hr hs
    have hp : r.page_num = r.idx + 1 := hpn r hr
    rw [block_of, if_neg (by simp [hs]), error_block, hp]
    by_cases hmd : output_format = "md"
    · rw [if_pos hmd]
      refine ⟨?_, ?_, fun _ => ?_, fun hcon => absurd hmd hcon⟩
      · exact ⟨("> **Error processing page ").data,
          (":**\n>\n> ```json\n> ").data ++ r.text.data ++ ("\n> ```").data,
          by simp [String.data_append]⟩
      · exact ⟨("> **Error processing page ").data ++ (toString (r.idx + 1)).data
            ++ (":**\n>\n> ```json\n> ").data,
          ("\n> ```").data, by simp [String.data_append]⟩
      · exact ⟨(toString (r.idx + 1)).data ++ (":**\n>\n> ```json\n> ").data
            ++ r.text.data ++ ("\n> ```").data, by simp [String.data_append]⟩
    · rw [if_neg hmd]
      refine ⟨?_, ?_, fun hcon => absurd hcon hmd, fun _ => ?_⟩
      · exact ⟨("--- Error processing page ").data,
          (" ---\n\n").data ++ r.text.data ++ ("\n\n---").data,
          by simp [String.data_append]⟩
      · exact ⟨("--- Error processing page ").data ++ (toString (r.idx + 1)).data
            ++ (" ---\n\n").data, ("\n\n---").data, by simp [String.data_append]⟩
      · exact ⟨(toString (r.idx + 1)).data ++ (" ---\n\n").data
            ++ r.text.data ++ ("\n\n---").data, by simp [String.data_append]⟩

/-- Witness for C9: a two-page Markdown batch whose second page failed. -/
theorem c9_formatter_witness :
    (∀ r ∈ ([⟨0, true, "good", 1⟩, ⟨1, false, "bad", 2⟩] : List PageResult),
        r.page_num = r.idx + 1) ∧
      (format_results "md" [⟨0, true, "good", 1⟩, ⟨1, false, "bad", 2⟩]
          = String.intercalate "\n\n"
              (([⟨0, true, "good", 1⟩, ⟨1, false, "bad", 2⟩] : List PageResult).map
                (block_of "md")) ∧
        (∀ r ∈ ([⟨0, true, "good", 1⟩, ⟨1, false, "bad", 2⟩] : List PageResult),
          r.success = true → block_of "md" r = r.text) ∧
        (∀ r ∈ ([⟨0, true, "good", 1⟩, ⟨1, false, "bad", 2⟩] : List PageResult),
          r.success = false →
            (toString (r.idx + 1)).data <:+: (block_of "md" r).data ∧
            r.text.data <:+: (block_of "md" r).data ∧
            ("md" = "md" →
              ("> **Error processing page ").data <+: (block_of "md" r).data) ∧
            ("md" ≠ "md" →
              ("--- Error processing page ").data <+: (block_of "md" r).data))) :=
  ⟨by decide,
   c9_formatter "md" [⟨0, true, "good", 1⟩, ⟨1, false, "bad", 2⟩] (by decide)⟩

end PDFtoMarkdown
